import Mathlib

/-!
# Verification of the movie-review on-chain program

Shallow embedding of `src/movie_review/src/{state.rs, instruction.rs, processor.rs}`.

Modelling conventions:
* Machine bytes are `Nat` (a well-formed byte is `< 256`); buffers are `List Nat`.
* `u64`/`u8`/`u32` arithmetic carries explicit `% 2^w` where the source can wrap.
* Account data is modelled at the byte level: records are (de)serialized with
  borsh-faithful codecs (length-prefixed strings with UTF-8 validation,
  little-endian integers, one-byte booleans).
* Fallible Rust code returns an explicit result type `Res`; a Rust `unwrap`/panic
  is the `Res.crashed` outcome, distinct from a typed error return.
* `Pubkey` is `Nat`; its 32 raw bytes are its little-endian digits.
-/

set_option maxRecDepth 20000

abbrev Bytes := List Nat

/-- Little-endian byte string of width `w` for value `v` (each byte reduced mod 256). -/
def leBytes : Nat → Nat → Bytes
  | 0, _ => []
  | w + 1, v => v % 256 :: leBytes w (v / 256)

/-- Big-endian byte string of width `w` (Rust `to_be_bytes`). -/
def beBytes (w v : Nat) : Bytes := (leBytes w v).reverse

/-- Value of a little-endian byte string. -/
def leVal : Bytes → Nat
  | [] => 0
  | b :: bs => b + 256 * leVal bs

theorem leBytes_length (w v : Nat) : (leBytes w v).length = w := by
  induction w generalizing v with
  | zero => rfl
  | succ w ih => simp [leBytes, ih]

theorem leVal_leBytes (w v : Nat) : leVal (leBytes w v) = v % 256 ^ w := by
  induction w generalizing v with
  | zero => simp [leBytes, leVal, Nat.mod_one]
  | succ w ih =>
    rw [leBytes, leVal, ih]
    have hm : 0 < 256 ^ w := Nat.pos_pow_of_pos _ (by norm_num)
    have hrlt : v % 256 < 256 := Nat.mod_lt _ (by norm_num)
    have hmlt : v / 256 % 256 ^ w < 256 ^ w := Nat.mod_lt _ hm
    have hpow : (256 : Nat) ^ (w + 1) = 256 * 256 ^ w := by ring
    rw [hpow]
    have hv : v = (256 * (v / 256 % 256 ^ w) + v % 256) +
        256 * 256 ^ w * (v / 256 / 256 ^ w) := by
      have h1 := Nat.div_add_mod v 256
      have h2 := Nat.div_add_mod (v / 256) (256 ^ w)
      have hassoc : 256 * 256 ^ w * (v / 256 / 256 ^ w) =
          256 * (256 ^ w * (v / 256 / 256 ^ w)) := by ring
      omega
    have hlt : 256 * (v / 256 % 256 ^ w) + v % 256 < 256 * 256 ^ w := by omega
    conv_rhs => rw [hv]
    rw [Nat.add_mul_mod_self_left, Nat.mod_eq_of_lt hlt]
    omega

/-- Whether a byte is a UTF-8 continuation byte. -/
def isCont (c : Nat) : Bool := decide (0x80 ≤ c ∧ c ≤ 0xBF)

/-- Second-byte constraint for a 3-byte UTF-8 sequence with lead byte `b`. -/
def utf8Lead3Ok (b c : Nat) : Bool :=
  (decide (b = 0xE0) && decide (0xA0 ≤ c ∧ c ≤ 0xBF)) ||
  (decide (0xE1 ≤ b ∧ b ≤ 0xEC) && isCont c) ||
  (decide (b = 0xED) && decide (0x80 ≤ c ∧ c ≤ 0x9F)) ||
  (decide (0xEE ≤ b ∧ b ≤ 0xEF) && isCont c)

/-- Second-byte constraint for a 4-byte UTF-8 sequence with lead byte `b`. -/
def utf8Lead4Ok (b c : Nat) : Bool :=
  (decide (b = 0xF0) && decide (0x90 ≤ c ∧ c ≤ 0xBF)) ||
  (decide (0xF1 ≤ b ∧ b ≤ 0xF3) && isCont c) ||
  (decide (b = 0xF4) && decide (0x80 ≤ c ∧ c ≤ 0x8F))

/-- UTF-8 validity of a byte string, as enforced by Rust `str::from_utf8`
(rejecting overlong forms, surrogates and values above U+10FFFF). -/
def utf8Valid : Bytes → Bool
  | [] => true
  | b :: rest =>
    if b ≤ 0x7F then utf8Valid rest
    else if b < 0xC2 then false
    else if b ≤ 0xDF then
      match rest with
      | c :: r => isCont c && utf8Valid r
      | [] => false
    else if b ≤ 0xEF then
      match rest with
      | c :: c2 :: r => utf8Lead3Ok b c && isCont c2 && utf8Valid r
      | _ => false
    else if b ≤ 0xF4 then
      match rest with
      | c :: c2 :: c3 :: r => utf8Lead4Ok b c && isCont c2 && isCont c3 && utf8Valid r
      | _ => false
    else false

/-- Read a `w`-byte little-endian integer (borsh fixed-width integer decode). -/
def readLEn (w : Nat) (b : Bytes) : Option (Nat × Bytes) :=
  if w ≤ b.length then some (leVal (b.take w), b.drop w) else none

/-- Read a borsh bool: one byte that must be 0 or 1. -/
def readBool : Bytes → Option (Bool × Bytes)
  | 0 :: r => some (false, r)
  | 1 :: r => some (true, r)
  | _ => none

/-- Read a borsh string: 4-byte little-endian length prefix, then that many
bytes which must be valid UTF-8. -/
def readStr (b : Bytes) : Option (Bytes × Bytes) :=
  match readLEn 4 b with
  | none => none
  | some (n, b1) =>
    if n ≤ b1.length then
      if utf8Valid (b1.take n) then some (b1.take n, b1.drop n) else none
    else none

/-- Borsh serialization of a string: 4-byte LE length prefix followed by the bytes. -/
def encodeStr (s : Bytes) : Bytes := leBytes 4 s.length ++ s

/-- Borsh serialization of a bool. -/
def boolByte (b : Bool) : Nat := if b then 1 else 0

/-- `BorshSerialize` into a fixed mutable byte buffer: the serialized bytes
overwrite a prefix of the buffer, the tail is left as it was; fails when the
serialization does not fit (Rust `failed to fill whole buffer`). -/
def writeBuf (ser buf : Bytes) : Option Bytes :=
  if ser.length ≤ buf.length then some (ser ++ buf.drop ser.length) else none

/-! ## Record shapes (`state.rs`) -/

/-- `MovieAccountState` (state.rs:5-13): field order is the borsh wire order. -/
structure MovieAccountState where
  discriminator : Bytes
  isInit : Bool
  reviewer : Nat
  rating : Nat
  title : Bytes
  description : Bytes
deriving DecidableEq

/-- `MovieCommentCounter` (state.rs:38-43). -/
structure MovieCommentCounter where
  discriminator : Bytes
  isInit : Bool
  counter : Nat
deriving DecidableEq

/-- `MovieComment` (state.rs:59-67). -/
structure MovieComment where
  discriminator : Bytes
  isInit : Bool
  reviewer : Nat
  commenter : Nat
  comment : Bytes
  count : Nat
deriving DecidableEq

/-- The UTF-8 bytes of `"review"` (`MovieAccountState::DISCRIMINATOR`). -/
def reviewDiscB : Bytes := [114, 101, 118, 105, 101, 119]

/-- The UTF-8 bytes of `"counter"` (`MovieCommentCounter::DISCRIMINATOR`). -/
def counterDiscB : Bytes := [99, 111, 117, 110, 116, 101, 114]

/-- The UTF-8 bytes of `"comment"` (`MovieComment::DISCRIMINATOR`, also the
counter PDA seed literal). -/
def commentDiscB : Bytes := [99, 111, 109, 109, 101, 110, 116]

/-- `MovieAccountState::MAX_ACCOUNT_SIZE` (state.rs:27). -/
def MovieAccountState.maxAccountSize : Nat := 1000

/-- `MovieAccountState::get_account_size` (state.rs:29-35). Note the source
formula counts 1 byte each for rating and the flag but no bytes for the
32-byte `reviewer` field. -/
def MovieAccountState.getAccountSize (title description : Bytes) : Nat :=
  (4 + reviewDiscB.length) + 1 + 1 + (4 + title.length) + (4 + description.length)

/-- `MovieCommentCounter::get_account_size` (state.rs:54-56). -/
def MovieCommentCounter.getAccountSize : Nat := (4 + counterDiscB.length) + 1 + 8

/-- `MovieComment::MAX_ACCOUNT_SIZE` (state.rs:78). -/
def MovieComment.maxAccountSize : Nat := 1000

/-- `MovieComment::get_account_size` (state.rs:80-82). -/
def MovieComment.getAccountSize (comment : Bytes) : Nat :=
  (4 + commentDiscB.length) + 1 + 32 + 32 + (4 + comment.length) + 8

/-- Raw pubkey bytes (`Pubkey::as_ref`): the 32 little-endian digits of the key. -/
def pkBytes (k : Nat) : Bytes := leBytes 32 k

/-- Borsh serialization of `MovieAccountState` in field order. -/
def serMovieAccountState (r : MovieAccountState) : Bytes :=
  encodeStr r.discriminator ++ [boolByte r.isInit] ++ leBytes 32 r.reviewer ++
    [r.rating % 256] ++ encodeStr r.title ++ encodeStr r.description

/-- Borsh serialization of `MovieCommentCounter` in field order. -/
def serMovieCommentCounter (c : MovieCommentCounter) : Bytes :=
  encodeStr c.discriminator ++ [boolByte c.isInit] ++ leBytes 8 c.counter

/-- Borsh serialization of `MovieComment` in field order. -/
def serMovieComment (m : MovieComment) : Bytes :=
  encodeStr m.discriminator ++ [boolByte m.isInit] ++ leBytes 32 m.reviewer ++
    leBytes 32 m.commenter ++ encodeStr m.comment ++ leBytes 8 m.count

/-- `try_from_slice_unchecked::<MovieAccountState>`: decode from a buffer
prefix, trailing bytes ignored. -/
def decMovieAccountState (b : Bytes) : Option MovieAccountState :=
  (readStr b).bind fun disc =>
  (readBool disc.2).bind fun flag =>
  (readLEn 32 flag.2).bind fun rev =>
  (readLEn 1 rev.2).bind fun rat =>
  (readStr rat.2).bind fun t =>
  (readStr t.2).bind fun d =>
  some ⟨disc.1, flag.1, rev.1, rat.1, t.1, d.1⟩

/-- `try_from_slice_unchecked::<MovieCommentCounter>`. -/
def decMovieCommentCounter (b : Bytes) : Option MovieCommentCounter :=
  (readStr b).bind fun disc =>
  (readBool disc.2).bind fun flag =>
  (readLEn 8 flag.2).bind fun v =>
  some ⟨disc.1, flag.1, v.1⟩

/-- `try_from_slice_unchecked::<MovieComment>`. -/
def decMovieComment (b : Bytes) : Option MovieComment :=
  (readStr b).bind fun disc =>
  (readBool disc.2).bind fun flag =>
  (readLEn 32 flag.2).bind fun rev =>
  (readLEn 32 rev.2).bind fun com =>
  (readStr com.2).bind fun txt =>
  (readLEn 8 txt.2).bind fun cnt =>
  some ⟨disc.1, flag.1, rev.1, com.1, txt.1, cnt.1⟩

/-! ## Execution model -/

/-- Error kinds surfaced by the program. `alreadyInit` is the spec's
`AlreadyInitialized` kind; it is listed so claims about it are statable, the
handlers never produce it. -/
inductive ProgErr where
  | missingRequiredSignature
  | illegalOwner
  | invalidInstructionData
  | notEnoughAccountKeys
  | borshFailed
  | unauthorizedSeeds
  | invalidPDA
  | invalidRating
  | invalidDataLength
  | uninitializedAccount
  | alreadyInit
deriving DecidableEq

/-- Result of executing a handler: success with a new ledger state (or a value),
a typed program error, or an abnormal abort (Rust panic, e.g. `unwrap`). -/
inductive Res (α : Type) where
  | ok : α → Res α
  | err : ProgErr → Res α
  | crashed : Res α
deriving DecidableEq

/-- An account handle as supplied with a request: its address and whether the
request carries its signature (`AccountInfo::key` / `is_signer`). -/
structure AccountMeta where
  key : Nat
  isSigner : Bool
deriving DecidableEq

/-- On-ledger content of one account: its controlling program and raw data. -/
structure Account where
  owner : Nat
  data : Bytes
deriving DecidableEq

/-- The ledger: account content per address. -/
def State := Nat → Account

/-- Replace the account stored at one address. -/
def updateState (s : State) (k : Nat) (a : Account) : State :=
  fun k' => if k' = k then a else s k'

/-- External address-derivation collaborator (`Pubkey::find_program_address`
and the runtime-side `create_program_address` used to check PDA signatures).
The handlers are parametric in it; theorems quantify over any such `Env`. -/
structure Env where
  findProgramAddress : List Bytes → Nat → Nat × Nat
  createProgramAddress : List Bytes → Nat → Option Nat

/-- Modelled from the spec: the storage-allocation and authorization-granting
collaborators (`system_instruction::create_account` called through
`invoke_signed`) are out-of-scope capabilities (spec §1, §4.1, §9). The model
requires the cited signer seeds to re-derive the target address (spec §4.1:
creation "requires citing it as authorization proof"), then guarantees
allocated zeroed space of the requested size at the address; a record that is
already allocated is left intact, re-creation being governed by the handlers'
own initialization-state checks (spec §4.2 step 6, §3 lifecycle). Rent/lamports
funding is elided: no modelled observable depends on it. -/
def createAccountCpi (env : Env) (pid : Nat) (s : State) (newKey : Nat)
    (size : Nat) (signSeeds : List Bytes) : Res State :=
  match env.createProgramAddress signSeeds pid with
  | none => .err .unauthorizedSeeds
  | some k =>
    if k ≠ newKey then .err .unauthorizedSeeds
    else if (s newKey).data.length = 0 then
      .ok (updateState s newKey ⟨pid, List.replicate size 0⟩)
    else .ok s

/-! ## Processor handlers (`processor.rs`) -/

/-- `add_movie_review` (processor.rs:47-180). Account order: reviewer,
review PDA, comment-counter PDA, system program. -/
def add_movie_review (env : Env) (pid : Nat) (accounts : List AccountMeta)
    (s : State) (title : Bytes) (rating : Nat) (description : Bytes) : Res State :=
  match accounts with
  | reviewer :: pdaReview :: pdaCommentCounter :: _systemProgram :: _ =>
    if reviewer.isSigner = false then .err .missingRequiredSignature else
    let fr := env.findProgramAddress [pkBytes reviewer.key, title] pid
    if fr.1 ≠ pdaReview.key then .err .invalidPDA else
    if ¬ (1 ≤ rating ∧ rating ≤ 5) then .err .invalidRating else
    if MovieAccountState.getAccountSize title description >
        MovieAccountState.maxAccountSize then .err .invalidDataLength else
    match createAccountCpi env pid s pdaReview.key MovieAccountState.maxAccountSize
        [pkBytes reviewer.key, title, [fr.2]] with
    | .err e => .err e
    | .crashed => .crashed
    | .ok s1 =>
      match decMovieAccountState ((s1 pdaReview.key).data) with
      | none => .err .borshFailed
      | some accountData =>
        if accountData.isInit = true then .err .uninitializedAccount else
        match writeBuf (serMovieAccountState
            ⟨reviewDiscB, true, reviewer.key, rating, title, description⟩)
            ((s1 pdaReview.key).data) with
        | none => .err .borshFailed
        | some buf =>
          let s2 := updateState s1 pdaReview.key ⟨(s1 pdaReview.key).owner, buf⟩
          let fc := env.findProgramAddress [pkBytes pdaReview.key, commentDiscB] pid
          if pdaCommentCounter.key ≠ fc.1 then .err .invalidPDA else
          match createAccountCpi env pid s2 pdaCommentCounter.key
              MovieCommentCounter.getAccountSize
              [pkBytes pdaReview.key, commentDiscB, [fc.2]] with
          | .err e => .err e
          | .crashed => .crashed
          | .ok s3 =>
            match decMovieCommentCounter ((s3 pdaCommentCounter.key).data) with
            | none => .err .borshFailed
            | some counterData =>
              if counterData.isInit = true then .err .uninitializedAccount else
              match writeBuf (serMovieCommentCounter ⟨counterDiscB, true, 0⟩)
                  ((s3 pdaCommentCounter.key).data) with
              | none => .err .borshFailed
              | some cbuf =>
                .ok (updateState s3 pdaCommentCounter.key
                  ⟨(s3 pdaCommentCounter.key).owner, cbuf⟩)
  | _ => .err .notEnoughAccountKeys

/-- `update_movie_review` (processor.rs:182-241). Account order: updater,
review PDA. -/
def update_movie_review (env : Env) (pid : Nat) (accounts : List AccountMeta)
    (s : State) (title : Bytes) (rating : Nat) (description : Bytes) : Res State :=
  match accounts with
  | updater :: pdaAccount :: _ =>
    if (s pdaAccount.key).owner ≠ pid then .err .illegalOwner else
    if updater.isSigner = false then .err .missingRequiredSignature else
    let f := env.findProgramAddress [pkBytes updater.key, title] pid
    if f.1 ≠ pdaAccount.key then .err .invalidPDA else
    if ¬ (1 ≤ rating ∧ rating ≤ 5) then .err .invalidRating else
    if MovieAccountState.getAccountSize title description >
        MovieAccountState.maxAccountSize then .err .invalidDataLength else
    match decMovieAccountState ((s pdaAccount.key).data) with
    | none => .err .borshFailed
    | some accountData =>
      if accountData.isInit = false then .err .uninitializedAccount else
      match writeBuf (serMovieAccountState
          { accountData with title := title, rating := rating,
                             description := description })
          ((s pdaAccount.key).data) with
      | none => .err .borshFailed
      | some buf =>
        .ok (updateState s pdaAccount.key ⟨(s pdaAccount.key).owner, buf⟩)
  | _ => .err .notEnoughAccountKeys

/-- The seeds `add_comment` derives the expected comment PDA from
(processor.rs:277-283): parent review key bytes and the big-endian counter
bytes (`to_be_bytes`). -/
def commentDeriveSeeds (reviewKey c : Nat) : List Bytes :=
  [pkBytes reviewKey, beBytes 8 c]

/-- The seeds `add_comment` cites as creation authorization in `invoke_signed`
(processor.rs:314-318): parent review key bytes, the little-endian counter
bytes (`to_le_bytes`), and the bump. -/
def commentSignSeeds (reviewKey c bump : Nat) : List Bytes :=
  [pkBytes reviewKey, leBytes 8 c, [bump]]

/-- `add_comment` (processor.rs:243-344). Account order: commenter, review PDA,
counter PDA, comment PDA, system program. -/
def add_comment (env : Env) (pid : Nat) (accounts : List AccountMeta)
    (s : State) (comment : Bytes) : Res State :=
  match accounts with
  | commenter :: pdaReview :: pdaCounter :: pdaComment :: _systemProgram :: _ =>
    match decMovieCommentCounter ((s pdaCounter.key).data) with
    | none => .crashed
    | some counterData =>
      if counterData.isInit = false then .err .uninitializedAccount else
      if commenter.isSigner = false then .err .missingRequiredSignature else
      if (s pdaReview.key).owner ≠ pid then .err .illegalOwner else
      let f := env.findProgramAddress
        (commentDeriveSeeds pdaReview.key counterData.counter) pid
      if f.1 ≠ pdaComment.key then .err .invalidPDA else
      if MovieComment.getAccountSize comment > MovieComment.maxAccountSize then
        .err .invalidDataLength else
      match createAccountCpi env pid s pdaComment.key MovieComment.maxAccountSize
          (commentSignSeeds pdaReview.key counterData.counter f.2) with
      | .err e => .err e
      | .crashed => .crashed
      | .ok s1 =>
        match decMovieComment ((s1 pdaComment.key).data) with
        | none => .err .borshFailed
        | some commentData =>
          if commentData.isInit = true then .err .uninitializedAccount else
          match writeBuf (serMovieComment
              ⟨commentDiscB, true, pdaReview.key, commenter.key, comment,
               counterData.counter⟩)
              ((s1 pdaComment.key).data) with
          | none => .err .borshFailed
          | some buf =>
            let s2 := updateState s1 pdaComment.key ⟨(s1 pdaComment.key).owner, buf⟩
            match writeBuf (serMovieCommentCounter
                ⟨counterData.discriminator, counterData.isInit,
                 (counterData.counter + 1) % 2 ^ 64⟩)
                ((s2 pdaCounter.key).data) with
            | none => .err .borshFailed
            | some cbuf =>
              .ok (updateState s2 pdaCounter.key ⟨(s2 pdaCounter.key).owner, cbuf⟩)
  | _ => .err .notEnoughAccountKeys

/-! ## Instruction decoding (`instruction.rs`) -/

/-- The three request actions dispatched by `processor.rs:26-44`. -/
inductive MovieInstruction where
  | addMovieReview (title : Bytes) (rating : Nat) (description : Bytes)
  | updateMovieReview (title : Bytes) (rating : Nat) (description : Bytes)
  | addComment (comment : Bytes)
deriving DecidableEq

/-- borsh `try_from_slice::<MovieReviewPayload>` (instruction.rs:12-17):
title string, rating u8, description string; trailing bytes rejected. -/
def decMovieReviewPayload (b : Bytes) : Option (Bytes × Nat × Bytes) :=
  (readStr b).bind fun t =>
  (readLEn 1 t.2).bind fun r =>
  (readStr r.2).bind fun d =>
  if d.2 = [] then some (t.1, r.1, d.1) else none

/-- borsh decode of the add-comment payload `{comment: string}` (spec §6
action 2); trailing bytes rejected. -/
def decCommentPayload (b : Bytes) : Option Bytes :=
  (readStr b).bind fun c => if c.2 = [] then some c.1 else none

/-- `MovieInstruction::unpack` exactly as in the in-tree `instruction.rs:20-33`:
splits off the variant byte (typed error when absent), `unwrap`s the payload
decode (abnormal abort on failure) and accepts only variant 0. -/
def unpackSrc (input : Bytes) : Res MovieInstruction :=
  match input with
  | [] => .err .invalidInstructionData
  | variant :: rest =>
    match decMovieReviewPayload rest with
    | none => .crashed
    | some p =>
      if variant = 0 then .ok (.addMovieReview p.1 p.2.1 p.2.2)
      else .err .invalidInstructionData

/-- Modelled from the spec: the three-variant `MovieInstruction::unpack` that
`processor.rs:24-44` dispatches on is missing from the tree — the in-tree
`instruction.rs` is an earlier single-variant revision (its enum lacks the
`UpdateMovieReview`/`AddComment` variants the processor matches on). Tags and
payload shapes follow spec §6 (action 0/1: `{title, rating, description}`,
action 2: `{comment}`, other tags rejected); the decode mechanics keep the
in-tree decoder's behavior, including the abnormal abort (`unwrap`) when a
payload fails to decode. -/
def unpackSpec (input : Bytes) : Res MovieInstruction :=
  match input with
  | [] => .err .invalidInstructionData
  | 0 :: rest =>
    match decMovieReviewPayload rest with
    | none => .crashed
    | some p => .ok (.addMovieReview p.1 p.2.1 p.2.2)
  | 1 :: rest =>
    match decMovieReviewPayload rest with
    | none => .crashed
    | some p => .ok (.updateMovieReview p.1 p.2.1 p.2.2)
  | 2 :: rest =>
    match decCommentPayload rest with
    | none => .crashed
    | some c => .ok (.addComment c)
  | _ :: _ => .err .invalidInstructionData

/-! ## Observable outcome of a request -/

/-- Whether a handler result is a success. -/
def Res.isOk {α : Type} : Res α → Bool
  | .ok _ => true
  | _ => false

/-- Project the success state, with a fallback. -/
def Res.getD (r : Res State) (d : State) : State :=
  match r with
  | .ok s => s
  | _ => d

/-- Modelled from the spec: §5 — the host executes each request as one atomic
unit; if the handler fails (typed error or abort) none of its writes land, so
the observable post-state of a failed create is the pre-state. -/
def runCreate (env : Env) (pid : Nat) (accounts : List AccountMeta) (s : State)
    (title : Bytes) (rating : Nat) (description : Bytes) : State :=
  match add_movie_review env pid accounts s title rating description with
  | .ok s' => s'
  | _ => s

/-- Whether the account at `k` holds a decodable Review marked initialized. -/
def obsReviewInit (s : State) (k : Nat) : Bool :=
  match decMovieAccountState ((s k).data) with
  | some r => r.isInit
  | none => false

/-- Whether the account at `k` holds a decodable CommentCounter marked
initialized. -/
def obsCounterInit (s : State) (k : Nat) : Bool :=
  match decMovieCommentCounter ((s k).data) with
  | some c => c.isInit
  | none => false

/-! ## Sequential add-comment driver -/

/-- The comment-PDA handle a well-behaved caller supplies for the next
add-comment: derived from the parent review key and the counter value
currently stored on the ledger (the address the handler itself re-derives). -/
def nextCommentKey (env : Env) (pid reviewKey counterKey : Nat) (s : State) : Nat :=
  match decMovieCommentCounter ((s counterKey).data) with
  | some cd => (env.findProgramAddress (commentDeriveSeeds reviewKey cd.counter) pid).1
  | none => 0

/-- Run `n` sequential `add_comment` requests against one review, each with
the comment handle derived for the current counter value. -/
def addCommentsN (env : Env) (pid commenter reviewKey counterKey sysKey : Nat)
    (text : Bytes) (s : State) : Nat → Res State
  | 0 => .ok s
  | n + 1 =>
    match add_comment env pid
        [⟨commenter, true⟩, ⟨reviewKey, false⟩, ⟨counterKey, false⟩,
         ⟨nextCommentKey env pid reviewKey counterKey s, false⟩, ⟨sysKey, false⟩]
        s text with
    | .ok s' => addCommentsN env pid commenter reviewKey counterKey sysKey text s' n
    | .err e => .err e
    | .crashed => .crashed

/-! ## Codec roundtrip lemmas -/

/-- A byte string is a well-formed borsh string payload: valid UTF-8 with a
length that fits in the u32 prefix. Rust `String` fields always satisfy it. -/
def wfStr (s : Bytes) : Prop := utf8Valid s = true ∧ s.length < 2 ^ 32

theorem readLEn_append (w v : Nat) (rest : Bytes) :
    readLEn w (leBytes w v ++ rest) = some (v % 256 ^ w, rest) := by
  have hlen := leBytes_length w v
  have ht := List.take_left (leBytes w v) rest
  have hd := List.drop_left (leBytes w v) rest
  rw [hlen] at ht hd
  simp only [readLEn, List.length_append, hlen, ht, hd, leVal_leBytes]
  rw [if_pos (by omega)]

theorem readBool_append (b : Bool) (rest : Bytes) :
    readBool (boolByte b :: rest) = some (b, rest) := by
  cases b <;> rfl

theorem readStr_append (sB rest : Bytes) (h1 : utf8Valid sB = true)
    (h2 : sB.length < 2 ^ 32) :
    readStr (encodeStr sB ++ rest) = some (sB, rest) := by
  have ht := List.take_left sB rest
  have hd := List.drop_left sB rest
  have hm : sB.length % 256 ^ 4 = sB.length := by
    apply Nat.mod_eq_of_lt
    calc sB.length < 2 ^ 32 := h2
      _ = 256 ^ 4 := by norm_num
  rw [readStr, encodeStr, List.append_assoc, readLEn_append, hm]
  simp only [ht, hd, List.length_append, h1, if_true]
  rw [if_pos (by omega)]

theorem cons_mod256_append (x : Nat) (xs : Bytes) :
    x % 256 :: xs = leBytes 1 x ++ xs := rfl

theorem decMovieAccountState_ser (r : MovieAccountState) (pad : Bytes)
    (hdc : wfStr r.discriminator) (hti : wfStr r.title)
    (hde : wfStr r.description) (hrev : r.reviewer < 256 ^ 32)
    (hrat : r.rating < 256) :
    decMovieAccountState (serMovieAccountState r ++ pad) = some r := by
  have hr1 : r.rating % 256 ^ 1 = r.rating := by
    rw [pow_one]; exact Nat.mod_eq_of_lt hrat
  rw [decMovieAccountState, serMovieAccountState]
  simp only [List.append_assoc, List.singleton_append, List.cons_append]
  rw [readStr_append _ _ hdc.1 hdc.2, Option.some_bind]
  dsimp only [List.nil_append]
  rw [readBool_append, Option.some_bind]
  dsimp only [List.nil_append]
  rw [readLEn_append, Option.some_bind, Nat.mod_eq_of_lt hrev]
  dsimp only [List.nil_append]
  rw [cons_mod256_append r.rating, readLEn_append, Option.some_bind, hr1]
  dsimp only [List.nil_append]
  rw [readStr_append _ _ hti.1 hti.2, Option.some_bind]
  dsimp only [List.nil_append]
  rw [readStr_append _ _ hde.1 hde.2, Option.some_bind]

theorem decMovieCommentCounter_ser (c : MovieCommentCounter) (pad : Bytes)
    (hdc : wfStr c.discriminator) (hc : c.counter < 256 ^ 8) :
    decMovieCommentCounter (serMovieCommentCounter c ++ pad) = some c := by
  rw [decMovieCommentCounter, serMovieCommentCounter]
  simp only [List.append_assoc, List.singleton_append, List.cons_append]
  rw [readStr_append _ _ hdc.1 hdc.2, Option.some_bind]
  dsimp only [List.nil_append]
  rw [readBool_append, Option.some_bind]
  dsimp only [List.nil_append]
  rw [readLEn_append, Option.some_bind, Nat.mod_eq_of_lt hc]

theorem decMovieComment_ser (m : MovieComment) (pad : Bytes)
    (hdc : wfStr m.discriminator) (htx : wfStr m.comment)
    (hrev : m.reviewer < 256 ^ 32) (hcom : m.commenter < 256 ^ 32)
    (hcnt : m.count < 256 ^ 8) :
    decMovieComment (serMovieComment m ++ pad) = some m := by
  rw [decMovieComment, serMovieComment]
  simp only [List.append_assoc, List.singleton_append, List.cons_append]
  rw [readStr_append _ _ hdc.1 hdc.2, Option.some_bind]
  dsimp only [List.nil_append]
  rw [readBool_append, Option.some_bind]
  dsimp only [List.nil_append]
  rw [readLEn_append, Option.some_bind, Nat.mod_eq_of_lt hrev]
  dsimp only [List.nil_append]
  rw [readLEn_append, Option.some_bind, Nat.mod_eq_of_lt hcom]
  dsimp only [List.nil_append]
  rw [readStr_append _ _ htx.1 htx.2, Option.some_bind]
  dsimp only [List.nil_append]
  rw [readLEn_append, Option.some_bind, Nat.mod_eq_of_lt hcnt]

/-! ## Small state lemmas -/

theorem updateState_same (s : State) (k : Nat) (a : Account) :
    updateState s k a k = a := by
  simp [updateState]

theorem updateState_other (s : State) (k : Nat) (a : Account) (k' : Nat)
    (h : k' ≠ k) : updateState s k a k' = s k' := by
  simp [updateState, h]

theorem createAccountCpi_err_eq (env : Env) (pid : Nat) (s : State) (k sz : Nat)
    (seeds : List Bytes) (e : ProgErr)
    (h : createAccountCpi env pid s k sz seeds = .err e) : e = .unauthorizedSeeds := by
  rw [createAccountCpi] at h
  split at h
  · injection h with h
    exact h.symm
  · split at h
    · injection h with h
      exact h.symm
    · split at h
      · exact Res.noConfusion h
      · exact Res.noConfusion h

theorem createAccountCpi_not_crashed (env : Env) (pid : Nat) (s : State)
    (k sz : Nat) (seeds : List Bytes) :
    createAccountCpi env pid s k sz seeds ≠ .crashed := by
  rw [createAccountCpi]
  split
  · exact fun h => Res.noConfusion h
  · split
    · exact fun h => Res.noConfusion h
    · split
      · exact fun h => Res.noConfusion h
      · exact fun h => Res.noConfusion h

/-! ## Concrete environments and ledgers for witnesses -/

/-- Sum-of-bytes seed digest: a concrete `Env` for witnesses. It is consistent
(`findProgramAddress` returns exactly the address that citing the same seeds
plus the bump re-derives) and insensitive to byte order inside a seed, so both
byte orders the code uses authorize successfully. -/
def seedSum (seeds : List Bytes) : Nat :=
  seeds.foldl (fun a l => a + l.foldl (fun x y => x + y) 0 + 37) 0

/-- Concrete witness environment built on `seedSum`. -/
def witEnv : Env :=
  ⟨fun seeds pid => (seedSum (seeds ++ [[255]]) + 1000 * pid + 7, 255),
   fun seeds pid => some (seedSum seeds + 1000 * pid + 7)⟩

/-- Order-sensitive seed digest: distinguishes the two byte orders. -/
def encBytesNat (l : Bytes) : Nat := l.foldl (fun a b => a * 300 + b + 1) 1

/-- Seed-list digest for `injEnv`. -/
def encSeeds (seeds : List Bytes) : Nat :=
  seeds.foldl (fun a l => a * 1000003 + encBytesNat l) 5

/-- Concrete environment whose derivation distinguishes seed byte order. -/
def injEnv : Env :=
  ⟨fun seeds pid => (encSeeds (seeds ++ [[251]]) + pid, 251),
   fun seeds pid => some (encSeeds seeds + pid)⟩

/-! ## Result-shape helpers -/

theorem err_ne {α : Type} {a b : ProgErr} (h : a ≠ b) :
    (Res.err a : Res α) ≠ .err b := by
  intro hc
  injection hc with hc
  exact h hc

theorem createAccountCpi_ne (env : Env) (pid : Nat) (s : State) (k sz : Nat)
    (seeds : List Bytes) (e : ProgErr) (hne : e ≠ .unauthorizedSeeds) :
    createAccountCpi env pid s k sz seeds ≠ .err e := by
  intro h
  exact hne (createAccountCpi_err_eq env pid s k sz seeds e h)

/-- If the rating is in bounds, `add_movie_review` never reports
`InvalidRating`, whatever else happens. -/
theorem add_movie_review_no_rating_err (env : Env) (pid : Nat)
    (accounts : List AccountMeta) (s : State) (t : Bytes) (r : Nat) (d : Bytes)
    (hr : 1 ≤ r ∧ r ≤ 5) :
    add_movie_review env pid accounts s t r d ≠ .err .invalidRating := by
  intro hcontra
  rcases accounts with _ | ⟨m0, _ | ⟨m1, _ | ⟨m2, _ | ⟨m3, rest⟩⟩⟩⟩
  · simp [add_movie_review] at hcontra
  · simp [add_movie_review] at hcontra
  · simp [add_movie_review] at hcontra
  · simp [add_movie_review] at hcontra
  · simp only [add_movie_review] at hcontra
    iterate 22 all_goals
      (first
        | exact err_ne (by decide) hcontra
        | exact Res.noConfusion hcontra
        | omega
        | (rename_i heq
           injection hcontra with hc
           subst hc
           exact createAccountCpi_ne _ _ _ _ _ _ _ (by decide) heq)
        | split at hcontra
        | skip)

/-- If the rating is in bounds, `update_movie_review` never reports
`InvalidRating`. -/
theorem update_movie_review_no_rating_err (env : Env) (pid : Nat)
    (accounts : List AccountMeta) (s : State) (t : Bytes) (r : Nat) (d : Bytes)
    (hr : 1 ≤ r ∧ r ≤ 5) :
    update_movie_review env pid accounts s t r d ≠ .err .invalidRating := by
  intro hcontra
  rcases accounts with _ | ⟨m0, _ | ⟨m1, rest⟩⟩
  · simp [update_movie_review] at hcontra
  · simp [update_movie_review] at hcontra
  · simp only [update_movie_review] at hcontra
    iterate 14 all_goals
      (first
        | exact err_ne (by decide) hcontra
        | exact Res.noConfusion hcontra
        | omega
        | split at hcontra
        | skip)

/-- With the earlier checks satisfied, an out-of-bounds rating makes
`add_movie_review` fail with `InvalidRating`. -/
theorem add_movie_review_bad_rating (env : Env) (pid : Nat)
    (m0 m1 m2 m3 : AccountMeta) (rest : List AccountMeta) (s : State)
    (t : Bytes) (r : Nat) (d : Bytes)
    (hs : m0.isSigner = true)
    (hpda : (env.findProgramAddress [pkBytes m0.key, t] pid).1 = m1.key)
    (hbad : ¬ (1 ≤ r ∧ r ≤ 5)) :
    add_movie_review env pid (m0 :: m1 :: m2 :: m3 :: rest) s t r d =
      .err .invalidRating := by
  simp only [add_movie_review]
  rw [if_neg (by simp [hs]), if_neg (by simp [hpda]), if_pos hbad]

/-- With the earlier checks satisfied, an out-of-bounds rating makes
`update_movie_review` fail with `InvalidRating`. -/
theorem update_movie_review_bad_rating (env : Env) (pid : Nat)
    (m0 m1 : AccountMeta) (rest : List AccountMeta) (s : State)
    (t : Bytes) (r : Nat) (d : Bytes)
    (hown : (s m1.key).owner = pid)
    (hs : m0.isSigner = true)
    (hpda : (env.findProgramAddress [pkBytes m0.key, t] pid).1 = m1.key)
    (hbad : ¬ (1 ≤ r ∧ r ≤ 5)) :
    update_movie_review env pid (m0 :: m1 :: rest) s t r d =
      .err .invalidRating := by
  simp only [update_movie_review]
  rw [if_neg (by simp [hown]), if_neg (by simp [hs]), if_neg (by simp [hpda]),
    if_pos hbad]

/-- A ledger with no accounts: everything unallocated, owned by the system. -/
def zeroLedger : State := fun _ => ⟨0, []⟩

/-- Claim C9: for every create-review or update-review request (with the
checks preceding the rating check satisfied), a rating of 0 or 6 — and any
value outside 1..=5 — fails with `InvalidRating`, while ratings 1 and 5 pass
the rating bounds check (the handlers never report `InvalidRating` for them). -/
theorem c9_rating_bounds :
    (∀ (env : Env) (pid : Nat) (m0 m1 m2 m3 : AccountMeta)
        (rest : List AccountMeta) (s : State) (t : Bytes) (r : Nat) (d : Bytes),
      m0.isSigner = true →
      (env.findProgramAddress [pkBytes m0.key, t] pid).1 = m1.key →
      ((¬ (1 ≤ r ∧ r ≤ 5) →
         add_movie_review env pid (m0 :: m1 :: m2 :: m3 :: rest) s t r d =
           .err .invalidRating) ∧
       (r = 1 ∨ r = 5 →
         add_movie_review env pid (m0 :: m1 :: m2 :: m3 :: rest) s t r d ≠
           .err .invalidRating))) ∧
    (∀ (env : Env) (pid : Nat) (m0 m1 : AccountMeta) (rest : List AccountMeta)
        (s : State) (t : Bytes) (r : Nat) (d : Bytes),
      (s m1.key).owner = pid →
      m0.isSigner = true →
      (env.findProgramAddress [pkBytes m0.key, t] pid).1 = m1.key →
      ((¬ (1 ≤ r ∧ r ≤ 5) →
         update_movie_review env pid (m0 :: m1 :: rest) s t r d =
           .err .invalidRating) ∧
       (r = 1 ∨ r = 5 →
         update_movie_review env pid (m0 :: m1 :: rest) s t r d ≠
           .err .invalidRating))) := by
  refine ⟨fun env pid m0 m1 m2 m3 rest s t r d hs hpda => ⟨?_, ?_⟩,
          fun env pid m0 m1 rest s t r d hown hs hpda => ⟨?_, ?_⟩⟩
  · exact fun hbad =>
      add_movie_review_bad_rating env pid m0 m1 m2 m3 rest s t r d hs hpda hbad
  · intro hg
    exact add_movie_review_no_rating_err env pid _ s t r d (by omega)
  · exact fun hbad =>
      update_movie_review_bad_rating env pid m0 m1 rest s t r d hown hs hpda hbad
  · intro hg
    exact update_movie_review_no_rating_err env pid _ s t r d (by omega)

/-- Ledger for the C9 update witness: the review PDA is owned by the program. -/
def c9Ledger : State :=
  fun k => if k = (witEnv.findProgramAddress [pkBytes 11, [97]] 5).1
           then ⟨5, []⟩ else ⟨0, []⟩

theorem c9_rating_bounds_witness :
    add_movie_review witEnv 5
      [⟨11, true⟩, ⟨(witEnv.findProgramAddress [pkBytes 11, [97]] 5).1, false⟩,
       ⟨12, false⟩, ⟨0, false⟩] zeroLedger [97] 0 [98] = .err .invalidRating ∧
    add_movie_review witEnv 5
      [⟨11, true⟩, ⟨(witEnv.findProgramAddress [pkBytes 11, [97]] 5).1, false⟩,
       ⟨12, false⟩, ⟨0, false⟩] zeroLedger [97] 6 [98] = .err .invalidRating ∧
    add_movie_review witEnv 5
      [⟨11, true⟩, ⟨(witEnv.findProgramAddress [pkBytes 11, [97]] 5).1, false⟩,
       ⟨12, false⟩, ⟨0, false⟩] zeroLedger [97] 1 [98] ≠ .err .invalidRating ∧
    update_movie_review witEnv 5
      [⟨11, true⟩, ⟨(witEnv.findProgramAddress [pkBytes 11, [97]] 5).1, false⟩]
      c9Ledger [97] 6 [98] = .err .invalidRating ∧
    update_movie_review witEnv 5
      [⟨11, true⟩, ⟨(witEnv.findProgramAddress [pkBytes 11, [97]] 5).1, false⟩]
      c9Ledger [97] 5 [98] ≠ .err .invalidRating := by
  refine ⟨?_, ?_, ?_, ?_, ?_⟩
  · exact (c9_rating_bounds.1 witEnv 5 ⟨11, true⟩
      ⟨(witEnv.findProgramAddress [pkBytes 11, [97]] 5).1, false⟩ ⟨12, false⟩
      ⟨0, false⟩ [] zeroLedger [97] 0 [98] rfl rfl).1 (by decide)
  · exact (c9_rating_bounds.1 witEnv 5 ⟨11, true⟩
      ⟨(witEnv.findProgramAddress [pkBytes 11, [97]] 5).1, false⟩ ⟨12, false⟩
      ⟨0, false⟩ [] zeroLedger [97] 6 [98] rfl rfl).1 (by decide)
  · exact (c9_rating_bounds.1 witEnv 5 ⟨11, true⟩
      ⟨(witEnv.findProgramAddress [pkBytes 11, [97]] 5).1, false⟩ ⟨12, false⟩
      ⟨0, false⟩ [] zeroLedger [97] 1 [98] rfl rfl).2 (Or.inl rfl)
  · exact (c9_rating_bounds.2 witEnv 5 ⟨11, true⟩
      ⟨(witEnv.findProgramAddress [pkBytes 11, [97]] 5).1, false⟩ []
      c9Ledger [97] 6 [98] (by simp [c9Ledger]) rfl rfl).1 (by decide)
  · exact (c9_rating_bounds.2 witEnv 5 ⟨11, true⟩
      ⟨(witEnv.findProgramAddress [pkBytes 11, [97]] 5).1, false⟩ []
      c9Ledger [97] 5 [98] (by simp [c9Ledger]) rfl rfl).2 (Or.inr rfl)

/-! ## Check-order lemmas -/

/-- `add_movie_review` checks the signature first (processor.rs:61-64). -/
theorem add_movie_review_unsigned (env : Env) (pid : Nat)
    (m0 m1 m2 m3 : AccountMeta) (rest : List AccountMeta) (s : State)
    (t : Bytes) (r : Nat) (d : Bytes) (hs : m0.isSigner = false) :
    add_movie_review env pid (m0 :: m1 :: m2 :: m3 :: rest) s t r d =
      .err .missingRequiredSignature := by
  simp only [add_movie_review]
  rw [if_pos hs]

/-- `update_movie_review` checks ownership before the signature
(processor.rs:195-198): a wrong owner fails with `IllegalOwner` even when the
request is unsigned. -/
theorem update_movie_review_wrong_owner (env : Env) (pid : Nat)
    (m0 m1 : AccountMeta) (rest : List AccountMeta) (s : State)
    (t : Bytes) (r : Nat) (d : Bytes) (hown : (s m1.key).owner ≠ pid) :
    update_movie_review env pid (m0 :: m1 :: rest) s t r d =
      .err .illegalOwner := by
  simp only [update_movie_review]
  rw [if_pos hown]

/-- With the owner right, an unsigned update fails with `MissingSignature`
(processor.rs:200-203). -/
theorem update_movie_review_unsigned (env : Env) (pid : Nat)
    (m0 m1 : AccountMeta) (rest : List AccountMeta) (s : State)
    (t : Bytes) (r : Nat) (d : Bytes) (hown : (s m1.key).owner = pid)
    (hs : m0.isSigner = false) :
    update_movie_review env pid (m0 :: m1 :: rest) s t r d =
      .err .missingRequiredSignature := by
  simp only [update_movie_review]
  rw [if_neg (by simp [hown]), if_pos hs]

/-- `add_comment` checks the counter's initialization first
(processor.rs:256-263): an uninitialized counter fails with
`UninitializedAccount` even when the request is unsigned. -/
theorem add_comment_uninit_counter (env : Env) (pid : Nat)
    (m0 m1 m2 m3 m4 : AccountMeta) (rest : List AccountMeta) (s : State)
    (cm : Bytes) (cr : MovieCommentCounter)
    (hdec : decMovieCommentCounter ((s m2.key).data) = some cr)
    (hinit : cr.isInit = false) :
    add_comment env pid (m0 :: m1 :: m2 :: m3 :: m4 :: rest) s cm =
      .err .uninitializedAccount := by
  simp only [add_comment, hdec]
  rw [if_pos hinit]

/-- With the counter initialized, an unsigned add-comment fails with
`MissingSignature` (processor.rs:266-269). -/
theorem add_comment_unsigned (env : Env) (pid : Nat)
    (m0 m1 m2 m3 m4 : AccountMeta) (rest : List AccountMeta) (s : State)
    (cm : Bytes) (cr : MovieCommentCounter)
    (hdec : decMovieCommentCounter ((s m2.key).data) = some cr)
    (hinit : cr.isInit = true) (hs : m0.isSigner = false) :
    add_comment env pid (m0 :: m1 :: m2 :: m3 :: m4 :: rest) s cm =
      .err .missingRequiredSignature := by
  simp only [add_comment, hdec]
  rw [if_neg (by simp [hinit]), if_pos hs]

/-- With the counter initialized and the request signed, a review handle not
owned by the program fails with `IllegalOwner` (processor.rs:272-275). -/
theorem add_comment_wrong_owner (env : Env) (pid : Nat)
    (m0 m1 m2 m3 m4 : AccountMeta) (rest : List AccountMeta) (s : State)
    (cm : Bytes) (cr : MovieCommentCounter)
    (hdec : decMovieCommentCounter ((s m2.key).data) = some cr)
    (hinit : cr.isInit = true) (hs : m0.isSigner = true)
    (hown : (s m1.key).owner ≠ pid) :
    add_comment env pid (m0 :: m1 :: m2 :: m3 :: m4 :: rest) s cm =
      .err .illegalOwner := by
  simp only [add_comment, hdec]
  rw [if_neg (by simp [hinit]), if_neg (by simp [hs]), if_pos hown]

/-- Ledger for C6: account 88 holds an uninitialized CommentCounter record;
every other account is owned by program 9 (not the program under test, 5). -/
def c6Ledger : State :=
  fun k => if k = 88 then ⟨5, serMovieCommentCounter ⟨counterDiscB, false, 0⟩⟩
           else ⟨9, []⟩

/-- Ledger for C6: account 88 holds an initialized CommentCounter record;
every other account is owned by program 9. -/
def c6LedgerB : State :=
  fun k => if k = 88 then ⟨5, serMovieCommentCounter ⟨counterDiscB, true, 0⟩⟩
           else ⟨9, []⟩

/-- Ledger where every account is owned by program 5. -/
def ownLedger : State := fun _ => ⟨5, []⟩

/-- Claim C6 counterexample: an unsigned update against a wrongly-owned
record fails with `IllegalOwner`, not `MissingSignature`; an unsigned
add-comment against an uninitialized counter fails with
`UninitializedAccount`, not `MissingSignature`. -/
theorem c6_cx :
    update_movie_review witEnv 5 [⟨11, false⟩, ⟨77, false⟩] c6Ledger [97] 3 [98] =
      .err .illegalOwner ∧
    (Res.err .illegalOwner : Res State) ≠ .err .missingRequiredSignature ∧
    add_comment witEnv 5
      [⟨11, false⟩, ⟨77, false⟩, ⟨88, false⟩, ⟨66, false⟩, ⟨0, false⟩]
      c6Ledger [104] = .err .uninitializedAccount ∧
    (Res.err .uninitializedAccount : Res State) ≠ .err .missingRequiredSignature := by
  exact ⟨rfl, err_ne (by decide), rfl, err_ne (by decide)⟩

/-- Claim C6 (amended): the checks run in a fixed per-operation order, but it
is not signer-first everywhere: create checks the signature first; update
checks ownership before the signature (unsigned + wrong owner gives
`IllegalOwner`); add-comment checks the counter's initialization state first,
then the signature, then the review's ownership (unsigned + uninitialized
counter gives `UninitializedAccount`). -/
theorem c6_check_order :
    (∀ (env : Env) (pid : Nat) (m0 m1 m2 m3 : AccountMeta)
        (rest : List AccountMeta) (s : State) (t : Bytes) (r : Nat) (d : Bytes),
      m0.isSigner = false →
      add_movie_review env pid (m0 :: m1 :: m2 :: m3 :: rest) s t r d =
        .err .missingRequiredSignature) ∧
    (∀ (env : Env) (pid : Nat) (m0 m1 : AccountMeta) (rest : List AccountMeta)
        (s : State) (t : Bytes) (r : Nat) (d : Bytes),
      (s m1.key).owner ≠ pid →
      update_movie_review env pid (m0 :: m1 :: rest) s t r d =
        .err .illegalOwner) ∧
    (∀ (env : Env) (pid : Nat) (m0 m1 : AccountMeta) (rest : List AccountMeta)
        (s : State) (t : Bytes) (r : Nat) (d : Bytes),
      (s m1.key).owner = pid → m0.isSigner = false →
      update_movie_review env pid (m0 :: m1 :: rest) s t r d =
        .err .missingRequiredSignature) ∧
    (∀ (env : Env) (pid : Nat) (m0 m1 m2 m3 m4 : AccountMeta)
        (rest : List AccountMeta) (s : State) (cm : Bytes)
        (cr : MovieCommentCounter),
      decMovieCommentCounter ((s m2.key).data) = some cr → cr.isInit = false →
      add_comment env pid (m0 :: m1 :: m2 :: m3 :: m4 :: rest) s cm =
        .err .uninitializedAccount) ∧
    (∀ (env : Env) (pid : Nat) (m0 m1 m2 m3 m4 : AccountMeta)
        (rest : List AccountMeta) (s : State) (cm : Bytes)
        (cr : MovieCommentCounter),
      decMovieCommentCounter ((s m2.key).data) = some cr → cr.isInit = true →
      m0.isSigner = false →
      add_comment env pid (m0 :: m1 :: m2 :: m3 :: m4 :: rest) s cm =
        .err .missingRequiredSignature) ∧
    (∀ (env : Env) (pid : Nat) (m0 m1 m2 m3 m4 : AccountMeta)
        (rest : List AccountMeta) (s : State) (cm : Bytes)
        (cr : MovieCommentCounter),
      decMovieCommentCounter ((s m2.key).data) = some cr → cr.isInit = true →
      m0.isSigner = true → (s m1.key).owner ≠ pid →
      add_comment env pid (m0 :: m1 :: m2 :: m3 :: m4 :: rest) s cm =
        .err .illegalOwner) := by
  refine ⟨?_, ?_, ?_, ?_, ?_, ?_⟩
  · exact fun env pid m0 m1 m2 m3 rest s t r d hs =>
      add_movie_review_unsigned env pid m0 m1 m2 m3 rest s t r d hs
  · exact fun env pid m0 m1 rest s t r d hown =>
      update_movie_review_wrong_owner env pid m0 m1 rest s t r d hown
  · exact fun env pid m0 m1 rest s t r d hown hs =>
      update_movie_review_unsigned env pid m0 m1 rest s t r d hown hs
  · exact fun env pid m0 m1 m2 m3 m4 rest s cm cr hdec hinit =>
      add_comment_uninit_counter env pid m0 m1 m2 m3 m4 rest s cm cr hdec hinit
  · exact fun env pid m0 m1 m2 m3 m4 rest s cm cr hdec hinit hs =>
      add_comment_unsigned env pid m0 m1 m2 m3 m4 rest s cm cr hdec hinit hs
  · exact fun env pid m0 m1 m2 m3 m4 rest s cm cr hdec hinit hs hown =>
      add_comment_wrong_owner env pid m0 m1 m2 m3 m4 rest s cm cr hdec hinit hs hown

theorem c6_check_order_witness :
    add_movie_review witEnv 5 [⟨11, false⟩, ⟨12, false⟩, ⟨13, false⟩, ⟨0, false⟩]
      zeroLedger [97] 3 [98] = .err .missingRequiredSignature ∧
    update_movie_review witEnv 5 [⟨11, false⟩, ⟨77, false⟩] c6Ledger [97] 3 [98] =
      .err .illegalOwner ∧
    update_movie_review witEnv 5 [⟨11, false⟩, ⟨77, false⟩] ownLedger [97] 3 [98] =
      .err .missingRequiredSignature ∧
    add_comment witEnv 5
      [⟨11, false⟩, ⟨77, false⟩, ⟨88, false⟩, ⟨66, false⟩, ⟨0, false⟩]
      c6Ledger [104] = .err .uninitializedAccount ∧
    add_comment witEnv 5
      [⟨11, false⟩, ⟨77, false⟩, ⟨88, false⟩, ⟨66, false⟩, ⟨0, false⟩]
      c6LedgerB [104] = .err .missingRequiredSignature ∧
    add_comment witEnv 5
      [⟨11, true⟩, ⟨77, false⟩, ⟨88, false⟩, ⟨66, false⟩, ⟨0, false⟩]
      c6LedgerB [104] = .err .illegalOwner := by
  refine ⟨?_, ?_, ?_, ?_, ?_, ?_⟩
  · exact c6_check_order.1 witEnv 5 ⟨11, false⟩ ⟨12, false⟩ ⟨13, false⟩ ⟨0, false⟩
      [] zeroLedger [97] 3 [98] rfl
  · exact c6_check_order.2.1 witEnv 5 ⟨11, false⟩ ⟨77, false⟩ [] c6Ledger
      [97] 3 [98] (by decide)
  · exact c6_check_order.2.2.1 witEnv 5 ⟨11, false⟩ ⟨77, false⟩ [] ownLedger
      [97] 3 [98] rfl rfl
  · exact c6_check_order.2.2.2.1 witEnv 5 ⟨11, false⟩ ⟨77, false⟩ ⟨88, false⟩
      ⟨66, false⟩ ⟨0, false⟩ [] c6Ledger [104] ⟨counterDiscB, false, 0⟩ rfl rfl
  · exact c6_check_order.2.2.2.2.1 witEnv 5 ⟨11, false⟩ ⟨77, false⟩ ⟨88, false⟩
      ⟨66, false⟩ ⟨0, false⟩ [] c6LedgerB [104] ⟨counterDiscB, true, 0⟩ rfl rfl rfl
  · exact c6_check_order.2.2.2.2.2 witEnv 5 ⟨11, true⟩ ⟨77, false⟩ ⟨88, false⟩
      ⟨66, false⟩ ⟨0, false⟩ [] c6LedgerB [104] ⟨counterDiscB, true, 0⟩ rfl rfl rfl
      (by decide)

/-- Ledger for C5: review record account at 201 owned by the program, an
initialized counter record at 202 (an address that does NOT equal the
counter PDA derived from (review, "comment")). -/
def c5Ledger : State :=
  fun k => if k = 201 then ⟨5, []⟩
           else if k = 202 then ⟨5, serMovieCommentCounter ⟨counterDiscB, true, 0⟩⟩
           else ⟨0, []⟩

/-- Claim C5 counterexample: `add_comment` succeeds although the supplied
counter handle's address (202) differs from the address derived from
(review address, "comment") — the handler never re-derives or compares the
counter address. -/
theorem c5_cx :
    202 ≠ (witEnv.findProgramAddress [pkBytes 201, commentDiscB] 5).1 ∧
    (add_comment witEnv 5
      [⟨11, true⟩, ⟨201, false⟩, ⟨202, false⟩,
       ⟨(witEnv.findProgramAddress (commentDeriveSeeds 201 0) 5).1, false⟩,
       ⟨0, false⟩] c5Ledger [104]).isOk = true := by
  exact ⟨by decide, by rfl⟩

/-- Claim C5 (amended): the only address check in `add_comment` compares the
supplied comment handle against the address derived from (review address,
big-endian counter value), failing with `InvalidPDA` on mismatch; the counter
handle's address is never compared against derive(review, "comment"), so a
counter at a non-derived address passes. -/
theorem c5_comment_pda_check :
    (∀ (env : Env) (pid : Nat) (m0 m1 m2 m3 m4 : AccountMeta)
        (rest : List AccountMeta) (s : State) (cm : Bytes)
        (cr : MovieCommentCounter),
      decMovieCommentCounter ((s m2.key).data) = some cr → cr.isInit = true →
      m0.isSigner = true → (s m1.key).owner = pid →
      (env.findProgramAddress (commentDeriveSeeds m1.key cr.counter) pid).1 ≠
        m3.key →
      add_comment env pid (m0 :: m1 :: m2 :: m3 :: m4 :: rest) s cm =
        .err .invalidPDA) ∧
    (202 ≠ (witEnv.findProgramAddress [pkBytes 201, commentDiscB] 5).1 ∧
     (add_comment witEnv 5
       [⟨11, true⟩, ⟨201, false⟩, ⟨202, false⟩,
        ⟨(witEnv.findProgramAddress (commentDeriveSeeds 201 0) 5).1, false⟩,
        ⟨0, false⟩] c5Ledger [104]).isOk = true) := by
  refine ⟨?_, by decide, by rfl⟩
  intro env pid m0 m1 m2 m3 m4 rest s cm cr hdec hinit hs hown hmm
  simp only [add_comment, hdec]
  rw [if_neg (by simp [hinit]), if_neg (by simp [hs]), if_neg (by simp [hown]),
    if_pos hmm]

theorem c5_comment_pda_check_witness :
    add_comment witEnv 5
      [⟨11, true⟩, ⟨201, false⟩, ⟨202, false⟩, ⟨42, false⟩, ⟨0, false⟩]
      c5Ledger [104] = .err .invalidPDA := by
  exact c5_comment_pda_check.1 witEnv 5 ⟨11, true⟩ ⟨201, false⟩ ⟨202, false⟩
    ⟨42, false⟩ ⟨0, false⟩ [] c5Ledger [104] ⟨counterDiscB, true, 0⟩ rfl rfl rfl
    (by decide) (by decide)

/-- Ledger for C7: review at 77 owned by program 3, counter at 88 initialized
with value 1 (a value whose big- and little-endian byte strings differ). -/
def c7Ledger : State :=
  fun k => if k = 77 then ⟨3, []⟩
           else if k = 88 then ⟨3, serMovieCommentCounter ⟨counterDiscB, true, 1⟩⟩
           else ⟨0, []⟩

/-- Claim C7 counterexample: the derive-and-compare step uses the big-endian
counter bytes while the authorization seeds use the little-endian bytes, and
the two differ at counter value 1; under an environment that distinguishes
seed byte order, the add-comment whose handle matches the big-endian-derived
address fails at the creation-authorization step. -/
theorem c7_cx :
    commentDeriveSeeds 201 1 = [pkBytes 201, beBytes 8 1] ∧
    commentSignSeeds 201 1 251 = [pkBytes 201, leBytes 8 1, [251]] ∧
    beBytes 8 1 ≠ leBytes 8 1 ∧
    add_comment injEnv 3
      [⟨9, true⟩, ⟨77, false⟩, ⟨88, false⟩,
       ⟨(injEnv.findProgramAddress (commentDeriveSeeds 77 1) 3).1, false⟩,
       ⟨0, false⟩] c7Ledger [104] = .err .unauthorizedSeeds := by
  exact ⟨rfl, rfl, by decide, by rfl⟩

/-- Claim C7 (amended): the comment address is derived (and compared) from
(review address, big-endian counter bytes), but the seeds cited as creation
authorization use the little-endian counter bytes; whenever the authorization
collaborator does not re-derive the comment address from those little-endian
seeds, the create fails with the authorization error, despite the handle
matching the big-endian derivation. -/
theorem c7_seed_encodings :
    (∀ (rk c bump : Nat),
      commentDeriveSeeds rk c = [pkBytes rk, beBytes 8 c] ∧
      commentSignSeeds rk c bump = [pkBytes rk, leBytes 8 c, [bump]]) ∧
    (∀ (env : Env) (pid : Nat) (m0 m1 m2 m3 m4 : AccountMeta)
        (rest : List AccountMeta) (s : State) (cm : Bytes)
        (cr : MovieCommentCounter),
      decMovieCommentCounter ((s m2.key).data) = some cr → cr.isInit = true →
      m0.isSigner = true → (s m1.key).owner = pid →
      (env.findProgramAddress (commentDeriveSeeds m1.key cr.counter) pid).1 =
        m3.key →
      MovieComment.getAccountSize cm ≤ MovieComment.maxAccountSize →
      env.createProgramAddress
        (commentSignSeeds m1.key cr.counter
          (env.findProgramAddress (commentDeriveSeeds m1.key cr.counter) pid).2)
        pid ≠ some m3.key →
      add_comment env pid (m0 :: m1 :: m2 :: m3 :: m4 :: rest) s cm =
        .err .unauthorizedSeeds) := by
  refine ⟨fun rk c bump => ⟨rfl, rfl⟩, ?_⟩
  intro env pid m0 m1 m2 m3 m4 rest s cm cr hdec hinit hs hown hpda hsz hcpa
  have hcpi : createAccountCpi env pid s m3.key MovieComment.maxAccountSize
      (commentSignSeeds m1.key cr.counter
        (env.findProgramAddress (commentDeriveSeeds m1.key cr.counter) pid).2) =
      .err .unauthorizedSeeds := by
    rw [createAccountCpi]
    split
    · rfl
    · next k heq =>
      rw [if_pos]
      intro hk
      exact hcpa (hk ▸ heq)
  simp only [add_comment, hdec]
  rw [if_neg (by simp [hinit]), if_neg (by simp [hs]), if_neg (by simp [hown]),
    if_neg (by simp [hpda]), if_neg (by omega), hcpi]

theorem c7_seed_encodings_witness :
    add_comment injEnv 3
      [⟨9, true⟩, ⟨77, false⟩, ⟨88, false⟩,
       ⟨(injEnv.findProgramAddress (commentDeriveSeeds 77 1) 3).1, false⟩,
       ⟨0, false⟩] c7Ledger [104] = .err .unauthorizedSeeds := by
  exact c7_seed_encodings.2 injEnv 3 ⟨9, true⟩ ⟨77, false⟩ ⟨88, false⟩
    ⟨(injEnv.findProgramAddress (commentDeriveSeeds 77 1) 3).1, false⟩ ⟨0, false⟩
    [] c7Ledger [104] ⟨counterDiscB, true, 1⟩ rfl rfl rfl rfl rfl (by decide)
    (by decide)

/-- Claim C8 counterexample: a request whose payload fails to decode (tag byte
0 with an empty payload) makes the in-tree `unpack` abort abnormally via
`unwrap` (instruction.rs:24) instead of returning the typed
`MalformedPayload`/`InvalidInstructionData` error. -/
theorem c8_cx :
    unpackSrc [0] = .crashed ∧
    (Res.crashed : Res MovieInstruction) ≠ .err .invalidInstructionData := by
  exact ⟨rfl, fun h => Res.noConfusion h⟩

/-- Claim C8 (amended): a request with no action byte, or an unknown action
tag with a decodable payload, fails with the typed
`InvalidInstructionData` (the spec's `MalformedPayload`); but a payload that
fails to decode aborts abnormally (panic via `unwrap`) instead of returning a
typed error. -/
theorem c8_unpack_behavior :
    unpackSrc [] = .err .invalidInstructionData ∧
    (∀ (v : Nat) (rest : Bytes), decMovieReviewPayload rest = none →
      unpackSrc (v :: rest) = .crashed) ∧
    (∀ (v : Nat) (rest : Bytes) (p : Bytes × Nat × Bytes),
      decMovieReviewPayload rest = some p →
      unpackSrc (v :: rest) =
        if v = 0 then .ok (.addMovieReview p.1 p.2.1 p.2.2)
        else .err .invalidInstructionData) := by
  refine ⟨rfl, ?_, ?_⟩
  · intro v rest h
    simp only [unpackSrc, h]
  · intro v rest p h
    simp only [unpackSrc, h]

theorem c8_unpack_behavior_witness :
    unpackSrc [] = .err .invalidInstructionData ∧
    unpackSrc [0] = .crashed ∧
    unpackSrc (5 :: (encodeStr [97] ++ [3] ++ encodeStr [98])) =
      .err .invalidInstructionData ∧
    unpackSrc (0 :: (encodeStr [97] ++ [3] ++ encodeStr [98])) =
      .ok (.addMovieReview [97] 3 [98]) := by
  refine ⟨c8_unpack_behavior.1, ?_, ?_, ?_⟩
  · exact c8_unpack_behavior.2.1 0 [] rfl
  · exact (c8_unpack_behavior.2.2 5 _ ([97], 3, [98]) (by rfl)).trans (by rfl)
  · exact (c8_unpack_behavior.2.2 0 _ ([97], 3, [98]) (by rfl)).trans (by rfl)

/-- Claim C1: the one-byte action discriminant selects among the three
actions — tag 0 decodes to create-review, tag 1 to update-review (both with
title/rating/description), tag 2 to add-comment (with the comment string);
any other tag is rejected with the typed error. Stated over the spec-modelled
three-variant decoder `unpackSpec`. -/
theorem c1_unpack_actions :
    unpackSpec [] = .err .invalidInstructionData ∧
    (∀ (rest t : Bytes) (r : Nat) (d : Bytes),
      decMovieReviewPayload rest = some (t, r, d) →
      unpackSpec (0 :: rest) = .ok (.addMovieReview t r d) ∧
      unpackSpec (1 :: rest) = .ok (.updateMovieReview t r d)) ∧
    (∀ (rest cm : Bytes), decCommentPayload rest = some cm →
      unpackSpec (2 :: rest) = .ok (.addComment cm)) ∧
    (∀ (v : Nat) (rest : Bytes), 3 ≤ v →
      unpackSpec (v :: rest) = .err .invalidInstructionData) := by
  refine ⟨rfl, ?_, ?_, ?_⟩
  · intro rest t r d h
    constructor
    · simp only [unpackSpec, h]
    · simp only [unpackSpec, h]
  · intro rest cm h
    simp only [unpackSpec, h]
  · intro v rest hv
    rcases v with _ | _ | _ | v
    · omega
    · omega
    · omega
    · rfl

theorem c1_unpack_actions_witness :
    unpackSpec (0 :: (encodeStr [97] ++ [3] ++ encodeStr [98])) =
      .ok (.addMovieReview [97] 3 [98]) ∧
    unpackSpec (1 :: (encodeStr [97] ++ [3] ++ encodeStr [98])) =
      .ok (.updateMovieReview [97] 3 [98]) ∧
    unpackSpec (2 :: encodeStr [104]) = .ok (.addComment [104]) ∧
    unpackSpec (7 :: encodeStr [104]) = .err .invalidInstructionData := by
  refine ⟨?_, ?_, ?_, ?_⟩
  · exact (c1_unpack_actions.2.1 _ [97] 3 [98] (by rfl)).1
  · exact (c1_unpack_actions.2.1 _ [97] 3 [98] (by rfl)).2
  · exact c1_unpack_actions.2.2.1 _ [104] (by rfl)
  · exact c1_unpack_actions.2.2.2 7 _ (by omega)

/-- Ledger for C3: the review PDA derived from (reviewer 11, title "a")
already holds an initialized Review record. -/
def c3Ledger : State :=
  fun k => if k = (witEnv.findProgramAddress [pkBytes 11, [97]] 5).1
           then ⟨5, serMovieAccountState ⟨reviewDiscB, true, 11, 3, [97], [98]⟩⟩
           else ⟨0, []⟩

/-- Claim C3: creating a review whose target record is already initialized
does fail — but with the `ReviewError::UninitializedAccount` variant
(processor.rs:112-115, logged as "Account already initialized"), not with the
spec's `AlreadyInitialized`. -/
theorem c3_second_create :
    obsReviewInit c3Ledger (witEnv.findProgramAddress [pkBytes 11, [97]] 5).1 =
      true ∧
    add_movie_review witEnv 5
      [⟨11, true⟩, ⟨(witEnv.findProgramAddress [pkBytes 11, [97]] 5).1, false⟩,
       ⟨13, false⟩, ⟨0, false⟩] c3Ledger [97] 3 [98] =
      .err .uninitializedAccount ∧
    (Res.err .uninitializedAccount : Res State) ≠ .err .alreadyInit := by
  exact ⟨by rfl, by rfl, err_ne (by decide)⟩

/-- Claim C2: if `add_movie_review` fails (typed error or abort), the host's
atomic execution discards every write, so neither the Review nor the
CommentCounter is observable as initialized afterwards when it was not
before. -/
theorem c2_create_atomic :
    (∀ (env : Env) (pid : Nat) (accounts : List AccountMeta) (s : State)
        (t : Bytes) (r : Nat) (d : Bytes),
      (add_movie_review env pid accounts s t r d).isOk = false →
      runCreate env pid accounts s t r d = s) ∧
    (∀ (env : Env) (pid : Nat) (accounts : List AccountMeta) (s : State)
        (t : Bytes) (r : Nat) (d : Bytes) (kR kC : Nat),
      (add_movie_review env pid accounts s t r d).isOk = false →
      obsReviewInit s kR = false → obsCounterInit s kC = false →
      obsReviewInit (runCreate env pid accounts s t r d) kR = false ∧
      obsCounterInit (runCreate env pid accounts s t r d) kC = false) := by
  have h1 : ∀ (env : Env) (pid : Nat) (accounts : List AccountMeta) (s : State)
      (t : Bytes) (r : Nat) (d : Bytes),
      (add_movie_review env pid accounts s t r d).isOk = false →
      runCreate env pid accounts s t r d = s := by
    intro env pid accounts s t r d h
    rw [runCreate]
    split
    · next s' heq => rw [heq] at h; exact absurd h (by simp [Res.isOk])
    · rfl
  refine ⟨h1, ?_⟩
  intro env pid accounts s t r d kR kC h hR hC
  rw [h1 env pid accounts s t r d h]
  exact ⟨hR, hC⟩

theorem c2_create_atomic_witness :
    (add_movie_review witEnv 5
      [⟨11, true⟩, ⟨(witEnv.findProgramAddress [pkBytes 11, [97]] 5).1, false⟩,
       ⟨999, false⟩, ⟨0, false⟩] zeroLedger [97] 3 [98]).isOk = false ∧
    obsReviewInit (runCreate witEnv 5
      [⟨11, true⟩, ⟨(witEnv.findProgramAddress [pkBytes 11, [97]] 5).1, false⟩,
       ⟨999, false⟩, ⟨0, false⟩] zeroLedger [97] 3 [98])
      (witEnv.findProgramAddress [pkBytes 11, [97]] 5).1 = false ∧
    obsCounterInit (runCreate witEnv 5
      [⟨11, true⟩, ⟨(witEnv.findProgramAddress [pkBytes 11, [97]] 5).1, false⟩,
       ⟨999, false⟩, ⟨0, false⟩] zeroLedger [97] 3 [98]) 999 = false := by
  have h : (add_movie_review witEnv 5
      [⟨11, true⟩, ⟨(witEnv.findProgramAddress [pkBytes 11, [97]] 5).1, false⟩,
       ⟨999, false⟩, ⟨0, false⟩] zeroLedger [97] 3 [98]).isOk = false := by rfl
  have h2 := c2_create_atomic.2 witEnv 5
    [⟨11, true⟩, ⟨(witEnv.findProgramAddress [pkBytes 11, [97]] 5).1, false⟩,
     ⟨999, false⟩, ⟨0, false⟩] zeroLedger [97] 3 [98]
    (witEnv.findProgramAddress [pkBytes 11, [97]] 5).1 999 h (by rfl) (by rfl)
  exact ⟨h, h2.1, h2.2⟩

/-! ## Decode inversion lemmas -/

theorem leVal_lt (bs : Bytes) (h : ∀ x ∈ bs, x < 256) :
    leVal bs < 256 ^ bs.length := by
  induction bs with
  | nil => simp [leVal]
  | cons a l ih =>
    have ha : a < 256 := h a (by simp)
    have ihl := ih (fun x hx => h x (by simp [hx]))
    simp only [leVal, List.length_cons]
    have hp : (256 : Nat) ^ (l.length + 1) = 256 * 256 ^ l.length := by ring
    rw [hp]
    omega

theorem readLEn_inv (w : Nat) (c : Bytes) (p : Nat × Bytes)
    (h : readLEn w c = some p) (hb : ∀ x ∈ c, x < 256) :
    p.1 < 256 ^ w ∧ ∀ x ∈ p.2, x ∈ c := by
  rw [readLEn] at h
  split at h
  · next hw =>
    injection h with h
    subst h
    refine ⟨?_, fun x hx => List.drop_subset _ _ hx⟩
    have hlen : (c.take w).length = w := by
      rw [List.length_take]; omega
    have hv := leVal_lt (c.take w) (fun x hx => hb x (List.take_subset _ _ hx))
    rw [hlen] at hv
    exact hv
  · exact Option.noConfusion h

theorem readStr_inv (c : Bytes) (p : Bytes × Bytes) (h : readStr c = some p) :
    utf8Valid p.1 = true ∧ p.1.length ≤ c.length ∧ ∀ x ∈ p.2, x ∈ c := by
  rw [readStr] at h
  cases hr : readLEn 4 c with
  | none => rw [hr] at h; exact Option.noConfusion h
  | some q =>
    obtain ⟨n, b1⟩ := q
    have hb1 : b1 = c.drop 4 ∧ n ≤ leVal (c.take 4) + 0 := by
      rw [readLEn] at hr
      split at hr
      · injection hr with hr
        injection hr with hr1 hr2
        exact ⟨hr2.symm, by omega⟩
      · exact Option.noConfusion hr
    rw [hr] at h
    dsimp only at h
    split at h
    · next hn =>
      split at h
      · next hu =>
        injection h with h
        subst h
        dsimp only
        refine ⟨hu, ?_, ?_⟩
        · have h1 : (b1.take n).length ≤ b1.length := by
            rw [List.length_take]; omega
          have hd : b1.length ≤ c.length := by
            rw [hb1.1, List.length_drop]; omega
          omega
        · intro x hx
          have hx1 : x ∈ b1 := List.drop_subset _ _ hx
          rw [hb1.1] at hx1
          exact List.drop_subset _ _ hx1
      · exact Option.noConfusion h
    · exact Option.noConfusion h

theorem readBool_inv (c : Bytes) (p : Bool × Bytes) (h : readBool c = some p) :
    ∀ x ∈ p.2, x ∈ c := by
  rcases c with _ | ⟨a, r⟩
  · simp [readBool] at h
  · rcases a with _ | _ | a
    · rw [readBool] at h
      injection h with h
      subst h
      exact fun x hx => by simp [hx]
    · rw [readBool] at h
      injection h with h
      subst h
      exact fun x hx => by simp [hx]
    · simp [readBool] at h

theorem decMovieAccountState_wf (b : Bytes) (rec : MovieAccountState)
    (h : decMovieAccountState b = some rec) (hb : ∀ x ∈ b, x < 256)
    (hl : b.length < 2 ^ 32) :
    utf8Valid rec.discriminator = true ∧ rec.discriminator.length < 2 ^ 32 ∧
    rec.reviewer < 256 ^ 32 := by
  rw [decMovieAccountState] at h
  cases h1 : readStr b with
  | none => rw [h1] at h; exact Option.noConfusion h
  | some p1 =>
    rw [h1, Option.some_bind] at h
    cases h2 : readBool p1.2 with
    | none => rw [h2] at h; exact Option.noConfusion h
    | some p2 =>
      rw [h2, Option.some_bind] at h
      cases h3 : readLEn 32 p2.2 with
      | none => rw [h3] at h; exact Option.noConfusion h
      | some p3 =>
        rw [h3, Option.some_bind] at h
        cases h4 : readLEn 1 p3.2 with
        | none => rw [h4] at h; exact Option.noConfusion h
        | some p4 =>
          rw [h4, Option.some_bind] at h
          cases h5 : readStr p4.2 with
          | none => rw [h5] at h; exact Option.noConfusion h
          | some p5 =>
            rw [h5, Option.some_bind] at h
            cases h6 : readStr p5.2 with
            | none => rw [h6] at h; exact Option.noConfusion h
            | some p6 =>
              rw [h6, Option.some_bind] at h
              injection h with h
              subst h
              dsimp only
              have hs1 := readStr_inv b p1 h1
              have hb2 : ∀ x ∈ p1.2, x < 256 :=
                fun x hx => hb x (hs1.2.2 x hx)
              have hb3 : ∀ x ∈ p2.2, x < 256 :=
                fun x hx => hb2 x (readBool_inv p1.2 p2 h2 x hx)
              have hrev := (readLEn_inv 32 p2.2 p3 h3 hb3).1
              exact ⟨hs1.1, by omega, hrev⟩

/-- Claim C10: a successful update leaves the record's discriminator,
initialized flag and stored reviewer unchanged and overwrites exactly the
title, rating and description; no other account is touched. -/
theorem c10_update_frame (env : Env) (pid : Nat) (m0 m1 : AccountMeta)
    (rest : List AccountMeta) (s : State) (t : Bytes) (r : Nat) (d : Bytes)
    (s' : State) (rec : MovieAccountState)
    (hupd : update_movie_review env pid (m0 :: m1 :: rest) s t r d = .ok s')
    (hdec : decMovieAccountState ((s m1.key).data) = some rec)
    (ht : utf8Valid t = true) (hd : utf8Valid d = true) (hr : r < 256)
    (hb : ∀ x ∈ (s m1.key).data, x < 256)
    (hl : (s m1.key).data.length < 2 ^ 32) :
    decMovieAccountState ((s' m1.key).data) =
      some { rec with title := t, rating := r, description := d } ∧
    ∀ k, k ≠ m1.key → s' k = s k := by
  simp only [update_movie_review] at hupd
  split at hupd
  · exact Res.noConfusion hupd
  split at hupd
  · exact Res.noConfusion hupd
  split at hupd
  · exact Res.noConfusion hupd
  split at hupd
  · exact Res.noConfusion hupd
  split at hupd
  · exact Res.noConfusion hupd
  rename_i hown hsig hpda hrat hsz
  split at hupd
  · exact Res.noConfusion hupd
  rename_i accountData heq
  split at hupd
  · exact Res.noConfusion hupd
  split at hupd
  · exact Res.noConfusion hupd
  rename_i buf hw
  injection hupd with hupd
  subst hupd
  have hAr : accountData = rec := by
    have h2 := hdec.symm.trans heq
    injection h2 with h2
    exact h2.symm
  subst hAr
  rw [writeBuf] at hw
  split at hw
  · next hle =>
    injection hw with hw
    subst hw
    have hwf := decMovieAccountState_wf _ _ hdec hb hl
    have hsz2 : t.length ≤ 1000 ∧ d.length ≤ 1000 := by
      simp [MovieAccountState.getAccountSize, MovieAccountState.maxAccountSize,
        reviewDiscB] at hsz
      omega
    constructor
    · rw [updateState_same]
      dsimp only
      apply decMovieAccountState_ser
      · exact ⟨hwf.1, hwf.2.1⟩
      · exact ⟨ht, by dsimp only; have := hsz2.1; omega⟩
      · exact ⟨hd, by dsimp only; have := hsz2.2; omega⟩
      · exact hwf.2.2
      · exact hr
    · intro k hk
      rw [updateState_other _ _ _ _ hk]
  · exact Option.noConfusion hw

/-- Ledger for the C10 witness: an initialized Review record, padded to the
100 bytes, at the PDA derived from (11, "a"), owned by 5. -/
def c10Ledger : State :=
  fun k => if k = (witEnv.findProgramAddress [pkBytes 11, [97]] 5).1
           then ⟨5, serMovieAccountState ⟨reviewDiscB, true, 11, 3, [97], [98]⟩ ++
                    List.replicate 46 0⟩
           else ⟨0, []⟩

theorem c10_update_frame_witness :
    (update_movie_review witEnv 5
      [⟨11, true⟩, ⟨(witEnv.findProgramAddress [pkBytes 11, [97]] 5).1, false⟩]
      c10Ledger [97] 4 [99]).isOk = true ∧
    decMovieAccountState
      (((update_movie_review witEnv 5
        [⟨11, true⟩, ⟨(witEnv.findProgramAddress [pkBytes 11, [97]] 5).1, false⟩]
        c10Ledger [97] 4 [99]).getD zeroLedger
        ((witEnv.findProgramAddress [pkBytes 11, [97]] 5).1)).data) =
      some ⟨reviewDiscB, true, 11, 4, [97], [99]⟩ := by
  have hex : ∃ s', update_movie_review witEnv 5
      [⟨11, true⟩, ⟨(witEnv.findProgramAddress [pkBytes 11, [97]] 5).1, false⟩]
      c10Ledger [97] 4 [99] = .ok s' := by
    rcases hE : update_movie_review witEnv 5
      [⟨11, true⟩, ⟨(witEnv.findProgramAddress [pkBytes 11, [97]] 5).1, false⟩]
      c10Ledger [97] 4 [99] with s' | e | _
    · exact ⟨s', rfl⟩
    · have hok : (update_movie_review witEnv 5
        [⟨11, true⟩, ⟨(witEnv.findProgramAddress [pkBytes 11, [97]] 5).1, false⟩]
        c10Ledger [97] 4 [99]).isOk = true := by rfl
      rw [hE] at hok
      exact absurd hok (by simp [Res.isOk])
    · have hok : (update_movie_review witEnv 5
        [⟨11, true⟩, ⟨(witEnv.findProgramAddress [pkBytes 11, [97]] 5).1, false⟩]
        c10Ledger [97] 4 [99]).isOk = true := by rfl
      rw [hE] at hok
      exact absurd hok (by simp [Res.isOk])
  obtain ⟨s', hE⟩ := hex
  have h10 := c10_update_frame witEnv 5 ⟨11, true⟩
    ⟨(witEnv.findProgramAddress [pkBytes 11, [97]] 5).1, false⟩ [] c10Ledger
    [97] 4 [99] s' ⟨reviewDiscB, true, 11, 3, [97], [98]⟩ hE (by rfl) (by rfl)
    (by rfl) (by decide) (by decide) (by decide)
  rw [hE]
  simp only [Res.getD]
  constructor
  · rfl
  · exact h10.1

/-! ## Sequential add-comment invariant (claim C4) -/

/-- The comment PDA for counter value `k` under one review. -/
def ckey (env : Env) (pid rk k : Nat) : Nat :=
  (env.findProgramAddress (commentDeriveSeeds rk k) pid).1

/-- The Comment record the `k`-th add writes. -/
def commentRecAt (rk commenter : Nat) (text : Bytes) (k : Nat) : MovieComment :=
  ⟨commentDiscB, true, rk, commenter, text, k⟩

/-- The CommentCounter record holding value `m`. -/
def counterRecAt (m : Nat) : MovieCommentCounter := ⟨counterDiscB, true, m⟩

/-- Invariant after `m` successful adds: the counter holds `m`, the review is
still program-owned, and for each `k < m` the account at the `k`-th comment
PDA holds the `k`-th Comment record. -/
def c4Inv (env : Env) (pid commenter rk ck : Nat) (text : Bytes) (m : Nat)
    (s : State) : Prop :=
  (s ck).data = serMovieCommentCounter (counterRecAt m) ∧
  (s rk).owner = pid ∧
  ∀ k, k < m → ∃ pad, (s (ckey env pid rk k)).data =
    serMovieComment (commentRecAt rk commenter text k) ++ pad

theorem createAccountCpi_ok_frame (env : Env) (pid : Nat) (s : State)
    (newKey sz : Nat) (seeds : List Bytes) (s1 : State)
    (h : createAccountCpi env pid s newKey sz seeds = .ok s1) :
    (∀ k, k ≠ newKey → s1 k = s k) ∧
    ((s newKey).data.length = 0 → s1 newKey = ⟨pid, List.replicate sz 0⟩) ∧
    ((s newKey).data.length ≠ 0 → s1 newKey = s newKey) := by
  rw [createAccountCpi] at h
  split at h
  · exact Res.noConfusion h
  · split at h
    · exact Res.noConfusion h
    · split at h
      · next hempty =>
        injection h with h
        subst h
        refine ⟨fun k hk => updateState_other _ _ _ _ hk, ?_, ?_⟩
        · intro _
          exact updateState_same _ _ _
        · intro hne
          exact absurd hempty hne
      · next hfull =>
        injection h with h
        subst h
        exact ⟨fun k _ => rfl, fun he => absurd he hfull, fun _ => rfl⟩

theorem serMovieCommentCounter_len (c : MovieCommentCounter) :
    (serMovieCommentCounter c).length = c.discriminator.length + 13 := by
  simp [serMovieCommentCounter, encodeStr, leBytes_length, boolByte]
  omega

theorem serMovieComment_len (r : MovieComment) :
    (serMovieComment r).length =
      r.discriminator.length + r.comment.length + 81 := by
  simp [serMovieComment, encodeStr, leBytes_length, boolByte]
  omega

theorem updateState_owner_keep (s0 : State) (k : Nat) (d : Bytes) (x : Nat) :
    ((updateState s0 k ⟨(s0 k).owner, d⟩) x).owner = (s0 x).owner := by
  by_cases h : x = k
  · subst h
    rw [updateState_same]
  · rw [updateState_other _ _ _ _ h]

theorem c4_step (env : Env) (pid commenter rk ck sysk : Nat) (text : Bytes)
    (m : Nat) (s s' : State)
    (hInv : c4Inv env pid commenter rk ck text m s)
    (hm : m + 1 < 2 ^ 64)
    (hkeys : ∀ k, k ≤ m → ckey env pid rk k ≠ rk ∧ ckey env pid rk k ≠ ck)
    (hrk : rk < 256 ^ 32) (hcm : commenter < 256 ^ 32)
    (htext : utf8Valid text = true) (hlen : text.length < 2 ^ 32)
    (hadd : add_comment env pid
      [⟨commenter, true⟩, ⟨rk, false⟩, ⟨ck, false⟩,
       ⟨nextCommentKey env pid rk ck s, false⟩, ⟨sysk, false⟩] s text = .ok s') :
    c4Inv env pid commenter rk ck text (m + 1) s' := by
  obtain ⟨hcnt, hown, hcoms⟩ := hInv
  have hm8 : m < 256 ^ 8 := by
    have h88 : (256 : Nat) ^ 8 = 2 ^ 64 := by norm_num
    omega
  have hdecC : decMovieCommentCounter ((s ck).data) = some (counterRecAt m) := by
    rw [hcnt]
    have h0 := decMovieCommentCounter_ser (counterRecAt m) []
      ⟨(by decide : utf8Valid counterDiscB = true),
       (by decide : counterDiscB.length < 2 ^ 32)⟩ hm8
    rwa [List.append_nil] at h0
  have hnext : nextCommentKey env pid rk ck s = ckey env pid rk m := by
    rw [nextCommentKey, hdecC]
    rfl
  obtain ⟨hKrk, hKck⟩ := hkeys m le_rfl
  rw [hnext] at hadd
  simp only [add_comment] at hadd
  rw [hdecC] at hadd
  dsimp only [counterRecAt] at hadd
  rw [if_neg (by simp)] at hadd
  rw [if_neg (by simp)] at hadd
  rw [if_neg (by simp [hown])] at hadd
  rw [if_neg (by simp [ckey])] at hadd
  split at hadd
  · exact Res.noConfusion hadd
  rename_i hsz
  split at hadd
  · exact Res.noConfusion hadd
  · exact Res.noConfusion hadd
  rename_i s1 hcpi
  split at hadd
  · exact Res.noConfusion hadd
  rename_i commentData heqc
  split at hadd
  · exact Res.noConfusion hadd
  rename_i hninit
  split at hadd
  · exact Res.noConfusion hadd
  rename_i buf hwb
  split at hadd
  · exact Res.noConfusion hadd
  rename_i cbuf hwc
  injection hadd with hadd
  subst hadd
  have frame := createAccountCpi_ok_frame _ _ _ _ _ _ _ hcpi
  have hs1ck : s1 ck = s ck := frame.1 ck (Ne.symm hKck)
  have hs2ck : updateState s1 (ckey env pid rk m)
      ⟨(s1 (ckey env pid rk m)).owner, buf⟩ ck = s ck := by
    rw [updateState_other _ _ _ _ (Ne.symm hKck), hs1ck]
  refine ⟨?_, ?_, ?_⟩
  · rw [updateState_same]
    rw [hs2ck] at hwc
    rw [writeBuf] at hwc
    rw [hcnt] at hwc
    have hl1 : (serMovieCommentCounter
        ⟨counterDiscB, true, (m + 1) % 2 ^ 64⟩).length = 20 := by
      rw [serMovieCommentCounter_len]
      dsimp only
      decide
    have hl2 : (serMovieCommentCounter (counterRecAt m)).length = 20 := by
      rw [serMovieCommentCounter_len]
      dsimp only [counterRecAt]
      decide
    rw [if_pos (by omega)] at hwc
    injection hwc with hwc
    subst hwc
    dsimp only
    rw [hl1, ← hl2, List.drop_length, List.append_nil]
    have hmm : (m + 1) % 2 ^ 64 = m + 1 := Nat.mod_eq_of_lt hm
    rw [hmm]
    rfl
  · rw [updateState_owner_keep, updateState_owner_keep,
      frame.1 rk (Ne.symm hKrk)]
    exact hown
  · intro k hk
    rcases Nat.lt_succ_iff_lt_or_eq.mp hk with hk' | hk'
    · obtain ⟨hkrk, hkck⟩ := hkeys k (Nat.le_of_lt hk')
      obtain ⟨pad, hpadk⟩ := hcoms k hk'
      have hkK : ckey env pid rk k ≠ ckey env pid rk m := by
        intro hKK
        have hsK : (s (ckey env pid rk m)).data =
            serMovieComment (commentRecAt rk commenter text k) ++ pad := by
          rw [← hKK]
          exact hpadk
        have hlen0 : (s (ckey env pid rk m)).data.length ≠ 0 := by
          rw [hsK, List.length_append, serMovieComment_len]
          simp only [commentRecAt]
          omega
        have hs1K := frame.2.2 hlen0
        rw [hs1K, hsK] at heqc
        have hrt := decMovieComment_ser (commentRecAt rk commenter text k) pad
          ⟨(by decide : utf8Valid commentDiscB = true),
           (by decide : commentDiscB.length < 2 ^ 32)⟩
          ⟨htext, hlen⟩ hrk hcm (by omega : k < 256 ^ 8)
        rw [hrt] at heqc
        injection heqc with heqc
        rw [← heqc] at hninit
        exact hninit rfl
      rw [updateState_other _ _ _ _ hkck, updateState_other _ _ _ _ hkK,
        frame.1 _ hkK]
      exact ⟨pad, hpadk⟩
    · subst hk'
      rw [updateState_other _ _ _ _ hKck, updateState_same]
      dsimp only
      rw [writeBuf] at hwb
      split at hwb
      · injection hwb with hwb
        subst hwb
        exact ⟨_, rfl⟩
      · exact Option.noConfusion hwb

theorem c4_run (env : Env) (pid commenter rk ck sysk : Nat) (text : Bytes) :
    ∀ (n m : Nat) (s s' : State),
      c4Inv env pid commenter rk ck text m s →
      m + n < 2 ^ 64 →
      (∀ k, k < m + n → ckey env pid rk k ≠ rk ∧ ckey env pid rk k ≠ ck) →
      rk < 256 ^ 32 → commenter < 256 ^ 32 →
      utf8Valid text = true → text.length < 2 ^ 32 →
      addCommentsN env pid commenter rk ck sysk text s n = .ok s' →
      c4Inv env pid commenter rk ck text (m + n) s' := by
  intro n
  induction n with
  | zero =>
    intro m s s' hInv _ _ _ _ _ _ hrun
    simp only [addCommentsN] at hrun
    injection hrun with hrun
    rw [Nat.add_zero, ← hrun]
    exact hInv
  | succ n ih =>
    intro m s s' hInv hbound hkeys hrk hcm ht hl hrun
    simp only [addCommentsN] at hrun
    split at hrun
    · rename_i s1 hstep
      have hInv1 := c4_step env pid commenter rk ck sysk text m s s1 hInv
        (by omega) (fun k hk => hkeys k (by omega)) hrk hcm ht hl hstep
      have hInvN := ih (m + 1) s1 s' hInv1 (by omega)
        (fun k hk => hkeys k (by omega)) hrk hcm ht hl hrun
      have harr : m + 1 + n = m + (n + 1) := by omega
      rwa [harr] at hInvN
    · exact Res.noConfusion hrun
    · exact Res.noConfusion hrun

/-- Claim C4: starting from a freshly created counter (value 0), N successful
sequential add-comment operations against one review store sequence values
0,1,...,N-1 (the k-th comment's stored count is k-1, the counter value read at
its creation) and leave the counter at N; and each single successful add ends
by bumping the counter by exactly 1, as the last write on top of a state in
which the comment record (carrying the read counter value) is already
written. -/
theorem c4_comment_sequence :
    (∀ (env : Env) (pid commenter rk ck sysk : Nat) (text : Bytes) (N : Nat)
        (s s' : State),
      (s ck).data = serMovieCommentCounter ⟨counterDiscB, true, 0⟩ →
      (s rk).owner = pid →
      N < 2 ^ 64 →
      (∀ k, k < N → ckey env pid rk k ≠ rk ∧ ckey env pid rk k ≠ ck) →
      rk < 256 ^ 32 → commenter < 256 ^ 32 →
      utf8Valid text = true → text.length < 2 ^ 32 →
      addCommentsN env pid commenter rk ck sysk text s N = .ok s' →
      decMovieCommentCounter ((s' ck).data) = some ⟨counterDiscB, true, N⟩ ∧
      ∀ k, k < N →
        decMovieComment ((s' (ckey env pid rk k)).data) =
          some ⟨commentDiscB, true, rk, commenter, text, k⟩) ∧
    (∀ (env : Env) (pid : Nat) (m0 m1 m2 m3 m4 : AccountMeta)
        (rest : List AccountMeta) (s s' : State) (cm : Bytes)
        (cr : MovieCommentCounter),
      decMovieCommentCounter ((s m2.key).data) = some cr →
      m3.key ≠ m2.key →
      add_comment env pid (m0 :: m1 :: m2 :: m3 :: m4 :: rest) s cm = .ok s' →
      ∃ (sMid : State) (cbuf pad : Bytes),
        (sMid m2.key).data = (s m2.key).data ∧
        (sMid m3.key).data = serMovieComment
          ⟨commentDiscB, true, m1.key, m0.key, cm, cr.counter⟩ ++ pad ∧
        writeBuf (serMovieCommentCounter
          ⟨cr.discriminator, cr.isInit, (cr.counter + 1) % 2 ^ 64⟩)
          ((sMid m2.key).data) = some cbuf ∧
        s' = updateState sMid m2.key ⟨(sMid m2.key).owner, cbuf⟩) := by
  constructor
  · intro env pid commenter rk ck sysk text N s s' hcnt hown hN hkeys hrk hcm
      ht hl hrun
    have hInv0 : c4Inv env pid commenter rk ck text 0 s :=
      ⟨hcnt, hown, fun k hk => absurd hk (by omega)⟩
    have hInvN := c4_run env pid commenter rk ck sysk text N 0 s s' hInv0
      (by omega) (fun k hk => hkeys k (by omega)) hrk hcm ht hl hrun
    rw [Nat.zero_add] at hInvN
    obtain ⟨hcntN, _, hcomsN⟩ := hInvN
    have hN8 : N < 256 ^ 8 := by
      have h88 : (256 : Nat) ^ 8 = 2 ^ 64 := by norm_num
      omega
    constructor
    · rw [hcntN]
      have h0 := decMovieCommentCounter_ser (counterRecAt N) []
        ⟨(by decide : utf8Valid counterDiscB = true),
         (by decide : counterDiscB.length < 2 ^ 32)⟩ hN8
      rwa [List.append_nil] at h0
    · intro k hk
      obtain ⟨pad, hpad⟩ := hcomsN k hk
      rw [hpad]
      exact decMovieComment_ser (commentRecAt rk commenter text k) pad
        ⟨(by decide : utf8Valid commentDiscB = true),
         (by decide : commentDiscB.length < 2 ^ 32)⟩
        ⟨ht, hl⟩ hrk hcm (by show k < 256 ^ 8; omega)
  · intro env pid m0 m1 m2 m3 m4 rest s s' cm cr hdec hne hadd
    simp only [add_comment] at hadd
    rw [hdec] at hadd
    dsimp only at hadd
    split at hadd
    · exact Res.noConfusion hadd
    split at hadd
    · exact Res.noConfusion hadd
    split at hadd
    · exact Res.noConfusion hadd
    split at hadd
    · exact Res.noConfusion hadd
    split at hadd
    · exact Res.noConfusion hadd
    split at hadd
    · exact Res.noConfusion hadd
    · exact Res.noConfusion hadd
    rename_i s1 hcpi
    split at hadd
    · exact Res.noConfusion hadd
    rename_i commentData heqc
    split at hadd
    · exact Res.noConfusion hadd
    rename_i hninit
    split at hadd
    · exact Res.noConfusion hadd
    rename_i buf hwb
    split at hadd
    · exact Res.noConfusion hadd
    rename_i cbuf hwc
    injection hadd with hadd
    subst hadd
    have frame := createAccountCpi_ok_frame _ _ _ _ _ _ _ hcpi
    have hmid : (updateState s1 m3.key ⟨(s1 m3.key).owner, buf⟩) m2.key =
        s m2.key := by
      rw [updateState_other _ _ _ _ (Ne.symm hne), frame.1 m2.key (Ne.symm hne)]
    rw [writeBuf] at hwb
    split at hwb
    · injection hwb with hwb
      subst hwb
      refine ⟨_, cbuf,
        (s1 m3.key).data.drop (serMovieComment ⟨commentDiscB, true, m1.key,
          m0.key, cm, cr.counter⟩).length, ?_, ?_, hwc, rfl⟩
      · rw [hmid]
      · rw [updateState_same]
    · exact Option.noConfusion hwb

/-- Ledger for the C4 witness: review at 201 owned by program 5, freshly
created counter (value 0) at 202. -/
def c4Ledger : State :=
  fun k => if k = 201 then ⟨5, []⟩
           else if k = 202 then ⟨5, serMovieCommentCounter ⟨counterDiscB, true, 0⟩⟩
           else ⟨0, []⟩

theorem c4_comment_sequence_witness :
    (addCommentsN witEnv 5 11 201 202 0 [104] c4Ledger 2).isOk = true ∧
    decMovieCommentCounter
      ((((addCommentsN witEnv 5 11 201 202 0 [104] c4Ledger 2).getD zeroLedger)
        202).data) = some ⟨counterDiscB, true, 2⟩ ∧
    decMovieComment
      ((((addCommentsN witEnv 5 11 201 202 0 [104] c4Ledger 2).getD zeroLedger)
        (ckey witEnv 5 201 0)).data) =
      some ⟨commentDiscB, true, 201, 11, [104], 0⟩ ∧
    decMovieComment
      ((((addCommentsN witEnv 5 11 201 202 0 [104] c4Ledger 2).getD zeroLedger)
        (ckey witEnv 5 201 1)).data) =
      some ⟨commentDiscB, true, 201, 11, [104], 1⟩ := by
  have hex : ∃ s', addCommentsN witEnv 5 11 201 202 0 [104] c4Ledger 2 =
      .ok s' := by
    rcases hE : addCommentsN witEnv 5 11 201 202 0 [104] c4Ledger 2
      with s' | e | _
    · exact ⟨s', rfl⟩
    · have hok : (addCommentsN witEnv 5 11 201 202 0 [104] c4Ledger 2).isOk =
          true := by rfl
      rw [hE] at hok
      exact absurd hok (by simp [Res.isOk])
    · have hok : (addCommentsN witEnv 5 11 201 202 0 [104] c4Ledger 2).isOk =
          true := by rfl
      rw [hE] at hok
      exact absurd hok (by simp [Res.isOk])
  obtain ⟨s', hE⟩ := hex
  have h4 := c4_comment_sequence.1 witEnv 5 11 201 202 0 [104] 2 c4Ledger s'
    rfl rfl (by omega) (by decide) (by decide) (by decide) (by decide)
    (by decide) hE
  rw [hE]
  simp only [Res.getD]
  exact ⟨by rfl, h4.1, h4.2 0 (by omega), h4.2 1 (by omega)⟩
